import Mathlib

/-!
Shallow embedding of `bittrex_autotrader.py` (classes `BittrexAutoTrader` and
`BittrexApiRequest`), for checking the natural-language specification against
the code.

Modelling conventions:
* Python floats that hold prices, spreads and quantities are modelled as `ℚ`;
  Python 2's `round(x, 8)` (round half away from zero) is `pyRound8`.
* The CSV round-trip `_list_of_dict_to_csv` / `numpy.loadtxt(..., ['Price'])`
  is modelled as extracting the `Price` column of the filtered records; an
  empty sample makes that pipeline raise an unhandled numpy exception, which
  is modelled as the `none` branch of `marketStats`.
* HTTP traffic is modelled by environments of `Envelope` values (the JSON
  envelope `{success, message, result}`); `requests.get` itself is outside
  the program.
* `hmac.new(secret, message, hashlib.sha512).hexdigest()` is a library
  primitive, not code of this repository; request construction is therefore
  parameterised by an arbitrary `sign : String → String → String`, and the
  theorems state which exact string that primitive is applied to.
* Python 2 dict iteration order is unspecified but fixed within one call; it
  is modelled by insertion order (`dictSet` keeps dict overwrite semantics).
* `sys.exit(1)` after a `success = false` envelope, and unhandled Python
  exceptions, are the two constructors of `ProcExit`; an `Except.error`
  result carries the process state at the moment the process dies.
-/

/-- BUY/SELL side of a trade (the `trade_type` / `OrderType` strings). -/
inductive Side where
  | BUY
  | SELL
deriving DecidableEq, Repr

/-- One record of `public/getmarkethistory`: the fields the program reads
(`Price`, `OrderType`). -/
structure TradeRecord where
  price : ℚ
  orderType : Side
deriving DecidableEq, Repr

/-- Result of `public/getticker`: fields `Bid`, `Ask`, `Last`. -/
structure Ticker where
  bid : ℚ
  ask : ℚ
  last : ℚ
deriving DecidableEq, Repr

/-- Result of `account/getorder`: the fields the loop reads
(`OrderUuid`, `IsOpen`). -/
structure OrderRec where
  orderUuid : String
  isOpen : Bool
deriving DecidableEq, Repr

/-- The Bittrex JSON envelope `{success, message, result}`. -/
structure Envelope (α : Type) where
  success : Bool
  message : String
  result : α
deriving DecidableEq, Repr

/-- Python 2 `round(x, 8)`: round half away from zero to 8 decimal places. -/
def pyRound8 (x : ℚ) : ℚ :=
  if 0 ≤ x then (⌊x * 100000000 + 1/2⌋ : ℚ) / 100000000
  else -((⌊-x * 100000000 + 1/2⌋ : ℚ) / 100000000)

/-- Arithmetic mean of a list (`ndarray.mean()` on the nonempty case). -/
def listMean (l : List ℚ) : ℚ := l.sum / l.length

/-- Maximum of a list (`ndarray.max()` on the nonempty case). -/
def listMaxD : List ℚ → ℚ
  | [] => 0
  | h :: t => t.foldl max h

/-- `BittrexAutoTrader._list_of_dict_filter_by data 'OrderType' value`:
keep the records whose `OrderType` equals the requested side. -/
def filterBy (data : List TradeRecord) (value : Side) : List TradeRecord :=
  data.filter (fun item => item.orderType = value)

/-- Lines 141-148 of `submit_order`: filter the market history by side,
extract the `Price` column, and take `round(mean, 8)` and `round(max, 8)`.
On an empty sample the numpy pipeline raises an unhandled exception,
modelled as `none`. -/
def marketStats (history : List TradeRecord) (ty : Side) : Option (ℚ × ℚ) :=
  let prices := (filterBy history ty).map TradeRecord.price
  if prices.isEmpty then none
  else some (pyRound8 (listMean prices), pyRound8 (listMaxD prices))

/-! Request construction: class `BittrexApiRequest`, lines 618-685. -/

/-- Line 35: the fixed base endpoint. -/
def BASE_URL : String := "https://bittrex.com/api/v1.1/"

/-- The `params` argument of `BittrexApiRequest.get`.  The Python signature
is `def get(self, method, params=dict, ...)`: the default is the builtin
`dict` TYPE OBJECT, not an empty dictionary, so a call that omits `params`
operates on the class object itself. -/
inductive ParamsArg where
  | dictClass
  | dictVal (pairs : List (String × String))
deriving DecidableEq, Repr

/-- An outgoing HTTP GET request: the URL actually transmitted and the
headers attached to it. -/
structure HttpRequest where
  url : String
  headers : List (String × String)
deriving DecidableEq, Repr

/-- An exception raised during request assembly (before any I/O). -/
inductive PyError where
  | typeError (detail : String)
deriving DecidableEq, Repr

/-- Python dict assignment `d[k] = v`: overwrite in place when the key
exists, otherwise add the pair. -/
def dictSet (l : List (String × String)) (k v : String) : List (String × String) :=
  if l.any (fun p => p.1 = k) then l.map (fun p => if p.1 = k then (k, v) else p)
  else l ++ [(k, v)]

/-- Lines 642-644: `'&'.join(name + '=' + str(value) for ...)`. -/
def queryString (pairs : List (String × String)) : String :=
  String.intercalate "&" (pairs.map (fun p => p.1 ++ "=" ++ p.2))

/-- The parameter dictionary after the signed-request injection of
lines 637-639: `params['apikey'] = self.apikey; params['nonce'] =
str(int(time.time()))`. -/
def signedParams (pairs : List (String × String)) (apikey : String) (now : Nat) :
    List (String × String) :=
  dictSet (dictSet pairs "apikey" apikey) "nonce" (toString now)

/-- `BittrexApiRequest.get` up to the point the request goes on the wire
(lines 618-659): parameter injection for signed calls, query-string
serialization, URL assembly, and the `apisign` header computed by
`BittrexApiRequest._sign(self.secret, url)` over the very URL string that is
transmitted.  `sign` stands for the library primitive
`hmac.new(secret, message, hashlib.sha512).hexdigest()`; `now` is
`int(time.time())`.  When `params` is the defaulted `dict` class object,
the first use of it raises a `TypeError`: item assignment on the type for
signed calls (line 638), the unbound `iteritems` call for unsigned ones
(line 643). -/
def apiGet (apikey secret : String) (sign : String → String → String) (now : Nat)
    (method : String) (params : ParamsArg) (headers : List (String × String))
    (signed : Bool) : Except PyError HttpRequest :=
  match params with
  | .dictClass =>
    if signed then
      .error (.typeError "type object does not support item assignment")
    else
      .error (.typeError "unbound method iteritems() must be called with dict instance")
  | .dictVal pairs =>
    let pairs2 := if signed then signedParams pairs apikey now else pairs
    let url := BASE_URL ++ method ++ "?" ++ queryString pairs2
    let headers2 := if signed then headers ++ [("apisign", sign secret url)] else headers
    .ok ⟨url, headers2⟩

/-- Line 336-343: `public_markets()` passes no `params`. -/
def public_markets (apikey secret : String) (sign : String → String → String)
    (now : Nat) : Except PyError HttpRequest :=
  apiGet apikey secret sign now "public/getmarkets" .dictClass [] false

/-- Line 345-352: `public_currencies()` passes no `params`. -/
def public_currencies (apikey secret : String) (sign : String → String → String)
    (now : Nat) : Except PyError HttpRequest :=
  apiGet apikey secret sign now "public/getcurrencies" .dictClass [] false

/-- Line 369-376: `public_market_summaries()` passes no `params`. -/
def public_market_summaries (apikey secret : String) (sign : String → String → String)
    (now : Nat) : Except PyError HttpRequest :=
  apiGet apikey secret sign now "public/getmarketsummaries" .dictClass [] false

/-- Line 495-502: `account_balances()` passes no `params` but `signed=True`. -/
def account_balances (apikey secret : String) (sign : String → String → String)
    (now : Nat) : Except PyError HttpRequest :=
  apiGet apikey secret sign now "account/getbalances" .dictClass [] true

/-- Line 354-367: `public_ticker(market)`. -/
def public_ticker_req (apikey secret : String) (sign : String → String → String)
    (now : Nat) (market : String) : Except PyError HttpRequest :=
  apiGet apikey secret sign now "public/getticker" (.dictVal [("market", market)]) [] false

/-- Line 393-406: `public_market_history(market)`. -/
def public_market_history_req (apikey secret : String) (sign : String → String → String)
    (now : Nat) (market : String) : Except PyError HttpRequest :=
  apiGet apikey secret sign now "public/getmarkethistory"
    (.dictVal [("market", market)]) [] false

/-- Line 426-445: `market_buy_limit(market, quantity, rate)`, signed.
Numeric arguments arrive already rendered by `str(value)`. -/
def market_buy_limit_req (apikey secret : String) (sign : String → String → String)
    (now : Nat) (market quantity rate : String) : Except PyError HttpRequest :=
  apiGet apikey secret sign now "market/buylimit"
    (.dictVal [("market", market), ("quantity", quantity), ("rate", rate)]) [] true

/-- Line 447-466: `market_sell_limit(market, quantity, rate)`, signed. -/
def market_sell_limit_req (apikey secret : String) (sign : String → String → String)
    (now : Nat) (market quantity rate : String) : Except PyError HttpRequest :=
  apiGet apikey secret sign now "market/selllimit"
    (.dictVal [("market", market), ("quantity", quantity), ("rate", rate)]) [] true

/-- Line 558-571: `account_order(uuid)`, signed. -/
def account_order_req (apikey secret : String) (sign : String → String → String)
    (now : Nat) (uuid : String) : Except PyError HttpRequest :=
  apiGet apikey secret sign now "account/getorder" (.dictVal [("uuid", uuid)]) [] true

/-! The trader: class `BittrexAutoTrader`, lines 71-204. -/

/-- How the process can die inside one operation: `sys.exit(1)` after a
`success = false` envelope (lines 662-664), or an unhandled Python
exception. -/
inductive ProcExit where
  | apiFailure (message : String) (code : Nat)
  | pyException (detail : String)
deriving DecidableEq, Repr

/-- Lines 659-667 of `BittrexApiRequest.get`: unwrap the JSON envelope.
On `success = false` the program prints `"Bittex response: %s" % message`
to stderr and calls `sys.exit(1)`; otherwise it returns the result
payload. -/
def unwrapResp {α : Type} (e : Envelope α) : Except ProcExit α :=
  if e.success = false then
    .error (.apiFailure ("Bittex response: " ++ e.message) 1)
  else
    .ok e.result

/-- Trader settings (`__init__`, lines 98-101).  `self.shares =
settings['shares']` is stored UNCONVERTED: it stays the configuration
string (argparse/ConfigParser deliver strings, and no `float(...)` is ever
applied to it, unlike the spread components and the ticker fields, which
the code converts at their use sites). -/
structure TraderConfig where
  market : String
  shares : String
  markup : ℚ
  markdown : ℚ
deriving DecidableEq, Repr

/-- The mutable trader attributes (`__init__`, lines 102-103): the order
ledger `self.orders` and the cursor `self.active`. -/
structure TraderState where
  orders : List OrderRec
  active : Nat
deriving DecidableEq, Repr

/-- Lines 102-103: `self.orders = []`, `self.active = 0`. -/
def initState : TraderState := ⟨[], 0⟩

/-- The remote responses consumed by one `submit_order` call, in program
order: `public_market_history`, `public_ticker`, the `buylimit`/`selllimit`
submission (its result carries the `uuid`), and the final `account_order`
fetch. -/
structure SubmitEnv where
  historyResp : Envelope (List TradeRecord)
  tickerResp : Envelope Ticker
  tradeResp : Envelope String
  orderResp : Envelope OrderRec
deriving DecidableEq, Repr

/-- A Python value that is either a float or a str: `total_units` starts
as the float `0.0005 / float(ticker['Last'])` (line 154) and is
reassigned the configuration STRING `self.shares` at line 156. -/
inductive PyVal where
  | pyFloat (x : ℚ)
  | pyStr (s : String)
deriving DecidableEq, Repr

/-- The CPython 2 comparison `x < s` between a float `x` and a str `s`
(line 155's `total_units < self.shares`): objects of different types
compare by type, with numeric types ordered before every other type, so a
float is less than any string — the comparison never looks at the values
and is always `true`. -/
def pyFloatLtStr (x : ℚ) (s : String) : Bool := true

/-- The limit-order submission actually issued: which endpoint
(`market/buylimit` for BUY, `market/selllimit` for SELL) and the market,
quantity and rate arguments passed to it.  The quantity is a `PyVal`
because `total_units` ends up holding the shares string. -/
structure TradeCall where
  side : Side
  market : String
  quantity : PyVal
  rate : ℚ
deriving DecidableEq, Repr

/-- Lines 153-156: `total_units = 0.0005 / float(ticker['Last'])`, then
`if total_units < self.shares: total_units = self.shares`.  The branch
condition is the always-true Python 2 float-versus-str comparison
(`pyFloatLtStr`), so the result is always the shares string and the
minimum-notional floor is dead code. -/
def totalUnitsCalc (shares : String) (last : ℚ) : PyVal :=
  if pyFloatLtStr (5 / 10000 / last) shares then .pyStr shares
  else .pyFloat (5 / 10000 / last)

/-- The limit rate of lines 167-194: for BUY (line 169-171)
`round(ticker_bid - ticker_bid * float(self.spread[1]), 8)`; for SELL
(line 183-185) `round(ticker_ask + ticker_ask * float(self.spread[0]), 8)`. -/
def tradeRate (cfg : TraderConfig) (t : Ticker) : Side → ℚ
  | .BUY => pyRound8 (t.bid - t.bid * cfg.markdown)
  | .SELL => pyRound8 (t.ask + t.ask * cfg.markup)

/-- `BittrexAutoTrader.submit_order` (lines 129-204), with I/O replaced by
the response environment.  Program order: fetch market history; filter by
side and compute the rounded mean/max (`marketStats`; an empty sample is
the unhandled numpy failure); fetch the ticker; compute
`total_units = 0.0005 / float(ticker.Last)` (a zero `Last` raises
`ZeroDivisionError`), always replaced by the shares string at line 156
because of the float-versus-str comparison (lines 153-156); branch on
the side to compute the limit rate (lines 167-194); submit; fetch the
order record by the returned uuid and append it to the ledger, advancing
the cursor (lines 196-198).  On a fatal exit the carried `TraderState` is
the process memory at the moment of death. -/
def submitOrder (cfg : TraderConfig) (env : SubmitEnv) (ty : Side)
    (st : TraderState) : Except (ProcExit × TraderState) (TraderState × TradeCall) :=
  match unwrapResp env.historyResp with
  | .error e => .error (e, st)
  | .ok history =>
    match marketStats history ty with
    | none => .error (.pyException "unhandled numpy failure on empty sample", st)
    | some _stats =>
      match unwrapResp env.tickerResp with
      | .error e => .error (e, st)
      | .ok ticker =>
        if ticker.last = 0 then .error (.pyException "ZeroDivisionError", st)
        else
          let totalUnits : PyVal := totalUnitsCalc cfg.shares ticker.last
          let rate : ℚ := tradeRate cfg ticker ty
          match unwrapResp env.tradeResp with
          | .error e => .error (e, st)
          | .ok _uuid =>
            match unwrapResp env.orderResp with
            | .error e => .error (e, st)
            | .ok order =>
              .ok (⟨st.orders ++ [order], st.active + 1⟩,
                   ⟨ty, cfg.market, totalUnits, rate⟩)

/-- Line 125: `last_trade = 'BUY' if last_trade == 'SELL' else 'SELL'`.
The loop-local `last_trade` starts as `None`, so the very first flip
produces SELL. -/
def flipSide : Option Side → Side
  | some .SELL => .BUY
  | _ => .SELL

/-- Python list subscription `l[i]` with negative-index wraparound. -/
def pyGet (l : List OrderRec) (i : Int) : Option OrderRec :=
  if i < 0 then l.get? (l.length - (-i).toNat) else l.get? i.toNat

/-- The state carried across iterations of `BittrexAutoTrader.init`: the
trader attributes plus the loop-local `last_trade` (initially `None`). -/
structure LoopState where
  ts : TraderState
  lastTrade : Option Side
deriving DecidableEq, Repr

/-- Initial loop state: fresh trader attributes and `last_trade = None`
(lines 102-103 and 110). -/
def initLoop : LoopState := ⟨initState, none⟩

/-- The remote responses consumed by one iteration of the loop: the
`account_order` poll of the active order (when one exists) and, if the
iteration goes on to submit, the `submit_order` responses. -/
structure StepEnv where
  pollResp : Envelope OrderRec
  submitEnv : SubmitEnv
deriving DecidableEq, Repr

/-- What one loop iteration did: slept for the fixed backoff
(`_wait(seconds=30)`, line 121) or submitted exactly one order. -/
inductive LoopAction where
  | slept (seconds : Nat)
  | submitted (call : TradeCall)
deriving DecidableEq, Repr

/-- One iteration of the `while True` loop of `BittrexAutoTrader.init`
(lines 112-127): if the ledger is nonempty, poll
`self.orders[self.active - 1]` (Python indexing; an out-of-range index is
an `IndexError`); when the poll says `IsOpen`, wait 30 seconds and start
over; otherwise flip `last_trade` and run `submit_order`. -/
def loopStep (cfg : TraderConfig) (e : StepEnv) (st : LoopState) :
    Except (ProcExit × LoopState) (LoopState × LoopAction) :=
  let proceed : Except (ProcExit × LoopState) (LoopState × LoopAction) :=
    let nt := flipSide st.lastTrade
    match submitOrder cfg e.submitEnv nt st.ts with
    | .error (pe, ts2) => .error (pe, ⟨ts2, some nt⟩)
    | .ok (ts2, call) => .ok (⟨ts2, some nt⟩, .submitted call)
  if st.ts.orders.isEmpty then proceed
  else
    match pyGet st.ts.orders ((st.ts.active : Int) - 1) with
    | none => .error (.pyException "IndexError", st)
    | some _polled =>
      match unwrapResp e.pollResp with
      | .error pe => .error (pe, st)
      | .ok order =>
        if order.isOpen then .ok (st, .slept 30) else proceed

/-- Run `fuel` iterations of the loop from step index `step`, collecting
the submission calls in order.  The loop itself never terminates; `fuel`
only truncates the trace for reasoning. -/
def runLoop (cfg : TraderConfig) (env : Nat → StepEnv) :
    Nat → Nat → LoopState → List TradeCall →
    Except (ProcExit × LoopState) (LoopState × List TradeCall)
  | _, 0, st, calls => .ok (st, calls)
  | step, fuel + 1, st, calls =>
    match loopStep cfg (env step) st with
    | .error e => .error e
    | .ok (st2, .slept _) => runLoop cfg env (step + 1) fuel st2 calls
    | .ok (st2, .submitted c) => runLoop cfg env (step + 1) fuel st2 (calls ++ [c])

/-! Predicates and concrete fixtures used by the theorems below. -/

/-- All remote responses consumed by one `submit_order` call answer with
`success = true`, the side filter is nonempty, and the ticker's `Last` is
nonzero: the conditions under which `submit_order` runs to completion. -/
def SubmitOk (env : SubmitEnv) (ty : Side) : Prop :=
  env.historyResp.success = true ∧
  filterBy env.historyResp.result ty ≠ [] ∧
  env.tickerResp.success = true ∧
  env.tickerResp.result.last ≠ 0 ∧
  env.tradeResp.success = true ∧
  env.orderResp.success = true

/-- Side of the n-th submitted order of a session (0-based): the flip rule
seeded with `None` gives SELL on even positions and BUY on odd ones. -/
def sideSeq (n : Nat) : Side := if n % 2 = 0 then Side.SELL else Side.BUY

/-- Invariant tying the loop state to the trace of submission calls: the
calls alternate according to `sideSeq`, and `last_trade` records the side
of the most recent call (or `None` before the first). -/
def LoopInv (st : LoopState) (calls : List TradeCall) : Prop :=
  (∀ i (hi : i < calls.length), (calls.get ⟨i, hi⟩).side = sideSeq i) ∧
  st.lastTrade = (if calls.length = 0 then none else some (sideSeq (calls.length - 1)))

/-- Concrete settings: market BTC-LTC, shares string "0.1",
spread "0.02/0.01". -/
def exCfg : TraderConfig := ⟨"BTC-LTC", "0.1", 2/100, 1/100⟩

/-- Concrete settings whose configured shares "0.001" lie below the
minimum-notional floor 0.0005 / 0.05 = 0.01 of the worked ticker. -/
def exCfgSmall : TraderConfig := ⟨"BTC-LTC", "0.001", 2/100, 1/100⟩

/-- Concrete responses for one successful `submit_order` round trip; the
market history holds fills on both sides. -/
def exSubmitEnv : SubmitEnv :=
  ⟨⟨true, "", [⟨1, .SELL⟩, ⟨3, .SELL⟩, ⟨2, .BUY⟩]⟩,
   ⟨true, "", ⟨5/100, 51/1000, 1/20⟩⟩,
   ⟨true, "", "uuid-1"⟩,
   ⟨true, "", ⟨"uuid-1", false⟩⟩⟩

/-- Concrete per-step environment: every poll reports the order closed and
every submission succeeds. -/
def exEnvFun : Nat → StepEnv := fun _ => ⟨⟨true, "", ⟨"uuid-1", false⟩⟩, exSubmitEnv⟩

/-- Trade history consisting of the three fills of the worked example. -/
def exHist : List TradeRecord := [⟨1, .BUY⟩, ⟨3, .BUY⟩, ⟨2, .SELL⟩]

/-- A ledger of two orders with the cursor at 2. -/
def exState2 : TraderState := ⟨[⟨"a", false⟩, ⟨"b", true⟩], 2⟩

/-- Responses where the trade submission is rejected by the exchange. -/
def exFailEnv : SubmitEnv :=
  ⟨⟨true, "", [⟨1, .SELL⟩, ⟨3, .SELL⟩, ⟨2, .BUY⟩]⟩,
   ⟨true, "", ⟨5/100, 51/1000, 1/20⟩⟩,
   ⟨false, "INSUFFICIENT_FUNDS", "uuid-1"⟩,
   ⟨true, "", ⟨"uuid-1", false⟩⟩⟩

/-- A loop state holding one open order with the cursor at 1. -/
def exOpenLoop : LoopState := ⟨⟨[⟨"uuid-1", true⟩], 1⟩, some .SELL⟩

/-- A step environment whose poll reports the active order still open. -/
def exOpenStep : StepEnv := ⟨⟨true, "", ⟨"uuid-1", true⟩⟩, exSubmitEnv⟩

/-- The sides of the submissions made by the first iteration of a session
run against `exEnvFun` (`none` would mean the process died). -/
def firstRunSides : Option (List Side) :=
  match runLoop exCfg exEnvFun 0 1 initLoop [] with
  | .ok (_, cs) => some (cs.map TradeCall.side)
  | .error _ => none
section RoundLemmas

theorem pyRound8_nonneg_def (x : ℚ) (hx : 0 ≤ x) :
    pyRound8 x = (⌊x * 100000000 + 1/2⌋ : ℚ) / 100000000 := by
  simp [pyRound8, hx]

theorem pyRound8_mono {x y : ℚ} (h : x ≤ y) : pyRound8 x ≤ pyRound8 y := by
  unfold pyRound8
  rcases le_or_lt 0 x with hx | hx
  · have hy : 0 ≤ y := le_trans hx h
    simp only [hx, hy, if_true]
    have hfl : (⌊x * 100000000 + 1/2⌋ : ℤ) ≤ ⌊y * 100000000 + 1/2⌋ := by
      apply Int.floor_le_floor
      nlinarith
    have : ((⌊x * 100000000 + 1/2⌋ : ℤ) : ℚ) ≤ ((⌊y * 100000000 + 1/2⌋ : ℤ) : ℚ) := by
      exact_mod_cast hfl
    linarith
  · rcases le_or_lt 0 y with hy | hy
    · simp only [not_le.mpr hx, if_false, hy, if_true]
      have h1 : (0 : ℤ) ≤ ⌊-x * 100000000 + 1/2⌋ := by
        apply Int.floor_nonneg.mpr
        nlinarith
      have h2 : (0 : ℤ) ≤ ⌊y * 100000000 + 1/2⌋ := by
        apply Int.floor_nonneg.mpr
        nlinarith
      have h1q : (0 : ℚ) ≤ ((⌊-x * 100000000 + 1/2⌋ : ℤ) : ℚ) := by exact_mod_cast h1
      have h2q : (0 : ℚ) ≤ ((⌊y * 100000000 + 1/2⌋ : ℤ) : ℚ) := by exact_mod_cast h2
      linarith
    · simp only [not_le.mpr hx, not_le.mpr hy, if_false]
      have hfl : (⌊-y * 100000000 + 1/2⌋ : ℤ) ≤ ⌊-x * 100000000 + 1/2⌋ := by
        apply Int.floor_le_floor
        nlinarith
      have hq : ((⌊-y * 100000000 + 1/2⌋ : ℤ) : ℚ) ≤ ((⌊-x * 100000000 + 1/2⌋ : ℤ) : ℚ) := by
        exact_mod_cast hfl
      have : ((⌊-y * 100000000 + 1/2⌋ : ℤ) : ℚ) / 100000000
            ≤ ((⌊-x * 100000000 + 1/2⌋ : ℤ) : ℚ) / 100000000 := by
        linarith
      linarith

theorem pyRound8_exists_int (x : ℚ) : ∃ k : ℤ, pyRound8 x = (k : ℚ) / 100000000 := by
  unfold pyRound8
  rcases le_or_lt 0 x with hx | hx
  · exact ⟨⌊x * 100000000 + 1/2⌋, by simp [hx]⟩
  · refine ⟨-⌊-x * 100000000 + 1/2⌋, ?_⟩
    simp only [not_le.mpr hx, if_false]
    push_cast
    ring

end RoundLemmas

section MeanMaxLemmas

theorem le_foldl_max (l : List ℚ) (b : ℚ) : b ≤ l.foldl max b := by
  induction l generalizing b with
  | nil => simp
  | cons c t ih =>
    simp only [List.foldl_cons]
    exact le_trans (le_max_left b c) (ih (max b c))

theorem mem_le_foldl_max (l : List ℚ) (b : ℚ) :
    ∀ x ∈ l, x ≤ l.foldl max b := by
  induction l generalizing b with
  | nil => simp
  | cons c t ih =>
    intro x hx
    rcases List.mem_cons.mp hx with rfl | hxt
    · simp only [List.foldl_cons]
      exact le_trans (le_max_right b x) (le_foldl_max t (max b x))
    · simpa using ih (max b c) x hxt

theorem mem_le_listMaxD (l : List ℚ) : ∀ x ∈ l, x ≤ listMaxD l := by
  cases l with
  | nil => simp
  | cons h t =>
    intro x hx
    rcases List.mem_cons.mp hx with rfl | hxt
    · exact le_foldl_max t x
    · exact mem_le_foldl_max t h x hxt

theorem sum_le_length_mul (l : List ℚ) (M : ℚ) (h : ∀ x ∈ l, x ≤ M) :
    l.sum ≤ l.length * M := by
  induction l with
  | nil => simp
  | cons c t ih =>
    have hc : c ≤ M := h c (List.mem_cons_self c t)
    have ht : t.sum ≤ t.length * M := ih (fun x hx => h x (List.mem_cons_of_mem c hx))
    simp only [List.sum_cons, List.length_cons]
    push_cast
    linarith

theorem listMean_le_listMaxD (l : List ℚ) (hne : l ≠ []) :
    listMean l ≤ listMaxD l := by
  have hpos : (0 : ℚ) < l.length := by
    have : 0 < l.length := List.length_pos.mpr hne
    exact_mod_cast this
  have hsum : l.sum ≤ l.length * listMaxD l :=
    sum_le_length_mul l (listMaxD l) (mem_le_listMaxD l)
  rw [listMean, div_le_iff₀ hpos]
  linarith [hsum]

end MeanMaxLemmas

section DictLemmas

theorem dictSet_mem (l : List (String × String)) (k v : String) :
    (k, v) ∈ dictSet l k v := by
  unfold dictSet
  split
  · rename_i h
    rcases List.any_eq_true.mp h with ⟨p, hp, hpk⟩
    have hk : p.1 = k := by simpa using hpk
    refine List.mem_map.mpr ⟨p, hp, ?_⟩
    simp [hk]
  · simp

theorem dictSet_mem_of_ne (l : List (String × String)) (k v k2 v2 : String)
    (hne : k ≠ k2) (h : (k, v) ∈ l) : (k, v) ∈ dictSet l k2 v2 := by
  unfold dictSet
  split
  · refine List.mem_map.mpr ⟨(k, v), h, ?_⟩
    simp [hne]
  · exact List.mem_append_left _ h

theorem signedParams_mem_apikey (pairs : List (String × String)) (apikey : String)
    (now : Nat) : ("apikey", apikey) ∈ signedParams pairs apikey now := by
  unfold signedParams
  exact dictSet_mem_of_ne _ _ _ _ _ (by decide) (dictSet_mem pairs "apikey" apikey)

theorem signedParams_mem_nonce (pairs : List (String × String)) (apikey : String)
    (now : Nat) : ("nonce", toString now) ∈ signedParams pairs apikey now := by
  unfold signedParams
  exact dictSet_mem _ "nonce" (toString now)

end DictLemmas

section SubmitLemmas

theorem marketStats_of_ne (history : List TradeRecord) (ty : Side)
    (h : filterBy history ty ≠ []) :
    marketStats history ty =
      some (pyRound8 (listMean ((filterBy history ty).map TradeRecord.price)),
            pyRound8 (listMaxD ((filterBy history ty).map TradeRecord.price))) := by
  unfold marketStats
  have hm : ((filterBy history ty).map TradeRecord.price) ≠ [] :=
    fun hc => h (List.map_eq_nil_iff.mp hc)
  simp [List.isEmpty_iff, hm]

theorem submitOrder_ok (cfg : TraderConfig) (env : SubmitEnv) (ty : Side)
    (st : TraderState) (h : SubmitOk env ty) :
    submitOrder cfg env ty st =
      .ok (⟨st.orders ++ [env.orderResp.result], st.active + 1⟩,
           ⟨ty, cfg.market,
            totalUnitsCalc cfg.shares env.tickerResp.result.last,
            tradeRate cfg env.tickerResp.result ty⟩) := by
  obtain ⟨h1, h2, h3, h4, h5, h6⟩ := h
  unfold submitOrder unwrapResp
  simp [h1, h3, h4, h5, h6, marketStats_of_ne _ _ h2]

end SubmitLemmas


section LoopLemmas

theorem pyGet_cursor_last (st : TraderState) (hinv : st.active = st.orders.length)
    (hne : st.orders ≠ []) :
    pyGet st.orders ((st.active : Int) - 1) = st.orders.getLast? := by
  have hlen : 0 < st.orders.length := List.length_pos.mpr hne
  unfold pyGet
  rw [hinv]
  rw [if_neg (by omega)]
  have ht : ((st.orders.length : Int) - 1).toNat = st.orders.length - 1 := by omega
  rw [ht, List.getLast?_eq_getElem?, List.get?_eq_getElem?]

theorem flipSide_sideSeq (k : Nat) :
    flipSide (if k = 0 then none else some (sideSeq (k - 1))) = sideSeq k := by
  rcases k with _ | k2
  · simp [flipSide, sideSeq]
  · rcases Nat.mod_two_eq_zero_or_one k2 with h2 | h2
    · have ha : (k2 + 1) % 2 = 1 := by omega
      simp [sideSeq, h2, ha, flipSide]
    · have ha : (k2 + 1) % 2 = 0 := by omega
      simp [sideSeq, h2, ha, flipSide]

end LoopLemmas

section SubmitShapeLemmas

theorem unwrapResp_ok_eq {α : Type} (e : Envelope α) (a : α)
    (h : unwrapResp e = .ok a) : a = e.result := by
  unfold unwrapResp at h
  split at h
  · cases h
  · cases h
    rfl

theorem submitOrder_error_state (cfg : TraderConfig) (env : SubmitEnv) (ty : Side)
    (st : TraderState) (e : ProcExit) (st2 : TraderState)
    (h : submitOrder cfg env ty st = .error (e, st2)) : st2 = st := by
  unfold submitOrder at h
  repeat' split at h
  all_goals (cases h <;> rfl)

theorem submitOrder_ok_shape (cfg : TraderConfig) (env : SubmitEnv) (ty : Side)
    (st : TraderState) (r : TraderState × TradeCall)
    (h : submitOrder cfg env ty st = .ok r) :
    r = (⟨st.orders ++ [env.orderResp.result], st.active + 1⟩,
         ⟨ty, cfg.market, totalUnitsCalc cfg.shares env.tickerResp.result.last,
          tradeRate cfg env.tickerResp.result ty⟩) := by
  unfold submitOrder at h
  cases hH : unwrapResp env.historyResp with
  | error e1 => simp only [hH] at h; cases h
  | ok history =>
    simp only [hH] at h
    cases hS : marketStats history ty with
    | none => simp only [hS] at h; cases h
    | some stats =>
      simp only [hS] at h
      cases hT : unwrapResp env.tickerResp with
      | error e1 => simp only [hT] at h; cases h
      | ok ticker =>
        simp only [hT] at h
        by_cases hz : ticker.last = 0
        · simp only [if_pos hz] at h; cases h
        · simp only [if_neg hz] at h
          cases hU : unwrapResp env.tradeResp with
          | error e1 => simp only [hU] at h; cases h
          | ok uuid =>
            simp only [hU] at h
            cases hO : unwrapResp env.orderResp with
            | error e1 => simp only [hO] at h; cases h
            | ok order =>
              simp only [hO] at h
              obtain rfl := unwrapResp_ok_eq _ _ hT
              obtain rfl := unwrapResp_ok_eq _ _ hO
              exact (Except.ok.injEq _ _).mp h.symm

end SubmitShapeLemmas

section LoopInvLemmas

theorem LoopInv_flip (st : LoopState) (calls : List TradeCall)
    (hinv : LoopInv st calls) : flipSide st.lastTrade = sideSeq calls.length := by
  rw [hinv.2]
  exact flipSide_sideSeq calls.length

theorem LoopInv_append (st : LoopState) (calls : List TradeCall)
    (hinv : LoopInv st calls) (ts2 : TraderState) (call : TradeCall)
    (hside : call.side = sideSeq calls.length) :
    LoopInv ⟨ts2, some (sideSeq calls.length)⟩ (calls ++ [call]) := by
  constructor
  · intro i hi
    rw [List.get_eq_getElem]
    rcases lt_or_ge i calls.length with hlt | hge
    · rw [List.getElem_append_left hlt]
      exact hinv.1 i hlt
    · have hle : i = calls.length := by
        have := hi
        simp only [List.length_append, List.length_singleton] at this
        omega
      subst hle
      rw [List.getElem_append_right (le_refl _)]
      simpa using hside
  · simp only [List.length_append, List.length_singleton]
    have : calls.length + 1 - 1 = calls.length := by omega
    simp [this]

theorem loopStep_inv (cfg : TraderConfig) (e : StepEnv) (st st2 : LoopState)
    (act : LoopAction) (calls : List TradeCall) (hinv : LoopInv st calls)
    (h : loopStep cfg e st = .ok (st2, act)) :
    (st2 = st ∧ ∃ s, act = .slept s) ∨
    (∃ c, act = .submitted c ∧ LoopInv st2 (calls ++ [c])) := by
  have hproceed : ∀ (hp : (match submitOrder cfg e.submitEnv (flipSide st.lastTrade) st.ts with
      | .error (pe, ts2) => Except.error (pe, (⟨ts2, some (flipSide st.lastTrade)⟩ : LoopState))
      | .ok (ts2, call) =>
          Except.ok ((⟨ts2, some (flipSide st.lastTrade)⟩ : LoopState), LoopAction.submitted call))
        = .ok (st2, act)),
      (∃ c, act = .submitted c ∧ LoopInv st2 (calls ++ [c])) := by
    intro hp
    cases hsub : submitOrder cfg e.submitEnv (flipSide st.lastTrade) st.ts with
    | error pe2 =>
      rcases pe2 with ⟨pe, ts2⟩
      simp only [hsub] at hp
      cases hp
    | ok r =>
      rcases r with ⟨ts2, call⟩
      simp only [hsub] at hp
      cases hp
      have hshape := submitOrder_ok_shape _ _ _ _ _ hsub
      have hcall : call = ⟨flipSide st.lastTrade, cfg.market,
          totalUnitsCalc cfg.shares e.submitEnv.tickerResp.result.last,
          tradeRate cfg e.submitEnv.tickerResp.result (flipSide st.lastTrade)⟩ := by
        simpa using congrArg Prod.snd hshape
      have hside : call.side = flipSide st.lastTrade := by rw [hcall]
      rw [LoopInv_flip st calls hinv] at hside
      refine ⟨call, rfl, ?_⟩
      have := LoopInv_append st calls hinv ts2 call hside
      rwa [← LoopInv_flip st calls hinv] at this
  unfold loopStep at h
  by_cases hemp : st.ts.orders.isEmpty
  · simp only [hemp, if_true] at h
    exact Or.inr (hproceed h)
  · simp only [hemp, if_false] at h
    cases hpg : pyGet st.ts.orders ((st.ts.active : Int) - 1) with
    | none => simp only [hpg] at h; cases h
    | some polled =>
      simp only [hpg] at h
      cases hpr : unwrapResp e.pollResp with
      | error pe => simp only [hpr] at h; cases h
      | ok order =>
        simp only [hpr] at h
        by_cases hopen : order.isOpen
        · simp only [hopen, if_true] at h
          cases h
          exact Or.inl ⟨rfl, 30, rfl⟩
        · simp only [hopen, if_false] at h
          exact Or.inr (hproceed h)

end LoopInvLemmas

theorem runLoop_inv (cfg : TraderConfig) (env : Nat → StepEnv) :
    ∀ (fuel step : Nat) (st : LoopState) (calls : List TradeCall)
      (st2 : LoopState) (calls2 : List TradeCall),
      LoopInv st calls →
      runLoop cfg env step fuel st calls = .ok (st2, calls2) →
      LoopInv st2 calls2 := by
  intro fuel
  induction fuel with
  | zero =>
    intro step st calls st2 calls2 hinv h
    unfold runLoop at h
    cases h
    exact hinv
  | succ n ih =>
    intro step st calls st2 calls2 hinv h
    unfold runLoop at h
    cases hstep : loopStep cfg (env step) st with
    | error e2 => simp only [hstep] at h; cases h
    | ok r =>
      rcases r with ⟨st3, act⟩
      rcases loopStep_inv cfg (env step) st st3 act calls hinv hstep with
        ⟨rfl, s, rfl⟩ | ⟨c, rfl, hinv2⟩
      · simp only [hstep] at h
        exact ih _ _ _ _ _ hinv h
      · simp only [hstep] at h
        exact ih _ _ _ _ _ hinv2 h

theorem LoopInv_init : LoopInv initLoop [] := by
  constructor
  · intro i hi
    simp at hi
  · rfl

/-! The claims. -/

section ClaimC1

/-- C1 (amended): over any run of the trading loop from the initial state,
the sides of the submitted orders strictly alternate starting with SELL:
the loop-local `last_trade` starts as `None`, and the flip rule of
line 125 sends every value other than `'SELL'` — including `None` — to
`'SELL'`, so order 0 is SELL, order 1 BUY, order 2 SELL, and so on. -/
theorem loop_sides_alternate_from_sell (cfg : TraderConfig) (env : Nat → StepEnv)
    (fuel : Nat) (st2 : LoopState) (calls : List TradeCall)
    (h : runLoop cfg env 0 fuel initLoop [] = .ok (st2, calls)) :
    ∀ i (hi : i < calls.length), (calls.get ⟨i, hi⟩).side = sideSeq i :=
  (runLoop_inv cfg env fuel 0 initLoop [] st2 calls LoopInv_init h).1

/-- C1 counterexample: in a concrete session where every submission
succeeds, the first submitted order has side SELL, not BUY as the claim
states. -/
theorem first_submission_is_sell :
    firstRunSides = some [Side.SELL] ∧ firstRunSides ≠ some [Side.BUY] := by
  have h : firstRunSides = some [Side.SELL] := by
    norm_num [firstRunSides, runLoop, loopStep, submitOrder, marketStats, filterBy,
      unwrapResp, initLoop, initState, exCfg, exEnvFun, exSubmitEnv, flipSide,
      listMean, listMaxD, totalUnitsCalc, pyFloatLtStr, tradeRate, pyRound8]
  refine ⟨h, ?_⟩
  rw [h]
  decide

/-- Witness for `loop_sides_alternate_from_sell`: the hypothesis holds for
a concrete one-step run, and the alternation conclusion follows there. -/
theorem loop_sides_alternate_from_sell_witness :
    runLoop exCfg exEnvFun 0 1 initLoop [] =
      .ok (⟨⟨[⟨"uuid-1", false⟩], 1⟩, some Side.SELL⟩,
           [⟨Side.SELL, "BTC-LTC", .pyStr "0.1", 2601/50000⟩]) ∧
    (∀ i (hi : i < [(⟨Side.SELL, "BTC-LTC", .pyStr "0.1", 2601/50000⟩ : TradeCall)].length),
      ([(⟨Side.SELL, "BTC-LTC", .pyStr "0.1", 2601/50000⟩ : TradeCall)].get ⟨i, hi⟩).side = sideSeq i) := by
  have h : runLoop exCfg exEnvFun 0 1 initLoop [] =
      .ok (⟨⟨[⟨"uuid-1", false⟩], 1⟩, some Side.SELL⟩,
           [⟨Side.SELL, "BTC-LTC", .pyStr "0.1", 2601/50000⟩]) := by
    norm_num [runLoop, loopStep, submitOrder, marketStats, filterBy,
      unwrapResp, initLoop, initState, exCfg, exEnvFun, exSubmitEnv, flipSide,
      listMean, listMaxD, totalUnitsCalc, pyFloatLtStr, tradeRate, pyRound8]
  exact ⟨h, loop_sides_alternate_from_sell exCfg exEnvFun 1 _ _ h⟩

end ClaimC1

section ClaimC2

/-- C2: for every authenticated call that passes an explicit parameter
dictionary, the request injects `apikey` (the credential key) and `nonce`
(the decimal string of the Unix time in whole seconds), forms the URL as
base endpoint + method path + `?` + query string, and attaches an
`apisign` header equal to the signing primitive applied to the secret and
the exact URL string that is transmitted; but the one authenticated
operation that omits its parameters, `account_balances`, raises a
`TypeError` during parameter assembly, so no request is constructed for
it at all. -/
theorem authed_request_construction (key secret : String)
    (sign : String → String → String) (now : Nat) (method : String)
    (pairs hdrs : List (String × String)) :
    (∃ req, apiGet key secret sign now method (.dictVal pairs) hdrs true = .ok req ∧
      ("apikey", key) ∈ signedParams pairs key now ∧
      ("nonce", toString now) ∈ signedParams pairs key now ∧
      req.url = BASE_URL ++ method ++ "?" ++ queryString (signedParams pairs key now) ∧
      ("apisign", sign secret req.url) ∈ req.headers) ∧
    account_balances key secret sign now =
      .error (.typeError "type object does not support item assignment") := by
  constructor
  · refine ⟨⟨BASE_URL ++ method ++ "?" ++ queryString (signedParams pairs key now),
      hdrs ++ [("apisign",
        sign secret (BASE_URL ++ method ++ "?" ++ queryString (signedParams pairs key now)))]⟩,
      rfl, signedParams_mem_apikey pairs key now, signedParams_mem_nonce pairs key now,
      rfl, ?_⟩
    simp
  · rfl

end ClaimC2

section ClaimC3

/-- C3: the four operations invoked with no named parameters (get markets,
get currencies, get market summaries, get balances) all raise a
`TypeError` during parameter assembly — the defaulted `params=dict` is the
dict type object — so no URL is built and no HTTP GET is issued for them;
operations that do pass parameters assemble the documented URL shape. -/
theorem noparams_operations_raise_type_error :
    public_markets "key" "secret" (fun s m => s ++ m) 0 =
      .error (.typeError "unbound method iteritems() must be called with dict instance") ∧
    public_currencies "key" "secret" (fun s m => s ++ m) 0 =
      .error (.typeError "unbound method iteritems() must be called with dict instance") ∧
    public_market_summaries "key" "secret" (fun s m => s ++ m) 0 =
      .error (.typeError "unbound method iteritems() must be called with dict instance") ∧
    account_balances "key" "secret" (fun s m => s ++ m) 0 =
      .error (.typeError "type object does not support item assignment") ∧
    (∀ (key secret : String) (sign : String → String → String) (now : Nat)
        (market : String),
      public_ticker_req key secret sign now market =
        .ok ⟨BASE_URL ++ "public/getticker" ++ "?" ++ queryString [("market", market)], []⟩) :=
  ⟨rfl, rfl, rfl, rfl, fun key secret sign now market => rfl⟩

end ClaimC3

section ClaimC4

/-- C4: under spread fractions in [0,1), `submit_order` prices a BUY at
`round8(bid × (1 − markdown))` and a SELL at `round8(ask × (1 + markup))`;
in particular 0.05 × 0.99 rounds to 0.04950000 and 0.051 × 1.02 rounds to
0.05202000. -/
theorem submit_order_price_formula (cfg : TraderConfig) (env : SubmitEnv)
    (st : TraderState)
    (hmu0 : 0 ≤ cfg.markup) (hmu1 : cfg.markup < 1)
    (hmd0 : 0 ≤ cfg.markdown) (hmd1 : cfg.markdown < 1) :
    (SubmitOk env Side.BUY →
      ∃ r, submitOrder cfg env Side.BUY st = .ok r ∧
        r.2.rate = pyRound8 (env.tickerResp.result.bid * (1 - cfg.markdown))) ∧
    (SubmitOk env Side.SELL →
      ∃ r, submitOrder cfg env Side.SELL st = .ok r ∧
        r.2.rate = pyRound8 (env.tickerResp.result.ask * (1 + cfg.markup))) ∧
    pyRound8 ((5 : ℚ) / 100 * (1 - 1 / 100)) = 495 / 10000 ∧
    pyRound8 ((51 : ℚ) / 1000 * (1 + 2 / 100)) = 5202 / 100000 := by
  refine ⟨?_, ?_, ?_, ?_⟩
  · intro hok
    refine ⟨_, submitOrder_ok cfg env Side.BUY st hok, ?_⟩
    simp only [tradeRate]
    exact congrArg pyRound8 (by ring)
  · intro hok
    refine ⟨_, submitOrder_ok cfg env Side.SELL st hok, ?_⟩
    simp only [tradeRate]
    exact congrArg pyRound8 (by ring)
  · norm_num [pyRound8]
  · norm_num [pyRound8]

/-- Witness for `submit_order_price_formula` at the concrete settings
market BTC-LTC, shares 0.1, spread 0.02/0.01. -/
theorem submit_order_price_formula_witness :
    ((0:ℚ) ≤ exCfg.markup ∧ exCfg.markup < 1 ∧
     (0:ℚ) ≤ exCfg.markdown ∧ exCfg.markdown < 1) ∧
    pyRound8 ((5 : ℚ) / 100 * (1 - 1 / 100)) = 495 / 10000 :=
  ⟨⟨by norm_num [exCfg], by norm_num [exCfg], by norm_num [exCfg], by norm_num [exCfg]⟩,
   (submit_order_price_formula exCfg exSubmitEnv initState (by norm_num [exCfg])
     (by norm_num [exCfg]) (by norm_num [exCfg]) (by norm_num [exCfg])).2.2.1⟩

end ClaimC4

section ClaimC5

/-- C5: the minimum-notional floor of lines 153-156 is dead code, against
the claim that the quantity is `max(0.0005 / Last, shares)`: `self.shares`
is the unconverted configuration string and Python 2 orders every float
before every str, so line 155's `total_units < self.shares` is always
true and line 156 always assigns the shares string — for every
configuration and every nonzero ticker the submitted quantity is the
configured shares, even when its numeric value (0.001 here) lies strictly
below the floor 0.0005 / Last = 0.01. -/
theorem share_floor_dead_code :
    (∀ (shares : String) (last : ℚ),
      totalUnitsCalc shares last = .pyStr shares) ∧
    (∃ r, submitOrder exCfgSmall exSubmitEnv Side.SELL initState = .ok r ∧
      r.2.quantity = .pyStr "0.001") ∧
    (1 : ℚ) / 1000 < 5 / 10000 / exSubmitEnv.tickerResp.result.last := by
  refine ⟨fun shares last => rfl, ?_, by norm_num [exSubmitEnv]⟩
  have hok : SubmitOk exSubmitEnv Side.SELL := by
    refine ⟨rfl, by decide, rfl, by norm_num [exSubmitEnv], rfl, rfl⟩
  exact ⟨_, submitOrder_ok exCfgSmall exSubmitEnv Side.SELL initState hok, rfl⟩

end ClaimC5

section ClaimC6

/-- C6: the statistics step keeps exactly the records whose side equals
the requested side and returns the mean and the max of their prices, each
rounded to 8 decimals; on every nonempty filtered set the mean is at most
the max and both are integer multiples of 10⁻⁸; the worked example gives
mean 2 and max 3 for BUY, mean 2 and max 2 for SELL. -/
theorem market_statistics_spec :
    (∀ (history : List TradeRecord) (ty : Side),
      filterBy history ty ≠ [] →
      ∃ m M, marketStats history ty = some (m, M) ∧
        m = pyRound8 (listMean ((filterBy history ty).map TradeRecord.price)) ∧
        M = pyRound8 (listMaxD ((filterBy history ty).map TradeRecord.price)) ∧
        m ≤ M ∧ (∃ a : ℤ, m = (a : ℚ) / 100000000) ∧
        (∃ b : ℤ, M = (b : ℚ) / 100000000)) ∧
    marketStats exHist Side.BUY = some (2, 3) ∧
    marketStats exHist Side.SELL = some (2, 2) := by
  refine ⟨?_, ?_, ?_⟩
  · intro history ty hne
    have hm : ((filterBy history ty).map TradeRecord.price) ≠ [] :=
      fun hc => hne (List.map_eq_nil_iff.mp hc)
    exact ⟨_, _, marketStats_of_ne history ty hne, rfl, rfl,
      pyRound8_mono (listMean_le_listMaxD _ hm), pyRound8_exists_int _,
      pyRound8_exists_int _⟩
  · have hf : filterBy exHist Side.BUY = [⟨1, .BUY⟩, ⟨3, .BUY⟩] := by decide
    rw [marketStats, hf]
    norm_num [listMean, listMaxD, pyRound8]
  · have hf : filterBy exHist Side.SELL = [⟨2, .SELL⟩] := by decide
    rw [marketStats, hf]
    norm_num [listMean, listMaxD, pyRound8]

/-- Witness for `market_statistics_spec` on the BUY side of the worked
example history. -/
theorem market_statistics_spec_witness :
    filterBy exHist Side.BUY ≠ [] ∧
    (∃ m M, marketStats exHist Side.BUY = some (m, M) ∧
      m = pyRound8 (listMean ((filterBy exHist Side.BUY).map TradeRecord.price)) ∧
      M = pyRound8 (listMaxD ((filterBy exHist Side.BUY).map TradeRecord.price)) ∧
      m ≤ M ∧ (∃ a : ℤ, m = (a : ℚ) / 100000000) ∧
      (∃ b : ℤ, M = (b : ℚ) / 100000000)) :=
  ⟨by decide, market_statistics_spec.1 exHist Side.BUY (by decide)⟩

end ClaimC6

section ClaimC7

/-- C7: with a trade history containing no record on the requested side,
the statistics step kills the submission before any pricing — but through
an unhandled failure inside the numpy pipeline, not through any explicit
named `InsufficientDataError` (no such error exists in the program). -/
theorem empty_sample_unhandled_failure :
    marketStats [⟨2, Side.SELL⟩] Side.BUY = none ∧
    (∀ (cfg : TraderConfig) (st : TraderState) (tickerR : Envelope Ticker)
        (tradeR : Envelope String) (orderR : Envelope OrderRec),
      submitOrder cfg ⟨⟨true, "", [⟨2, Side.SELL⟩]⟩, tickerR, tradeR, orderR⟩
          Side.BUY st =
        .error (.pyException "unhandled numpy failure on empty sample", st)) :=
  ⟨by decide, fun cfg st tickerR tradeR orderR => rfl⟩

end ClaimC7

section ClaimC8

/-- C8: a `success = false` envelope is fatal: the process prints the
server message (prefixed `Bittex response: `) to the error stream and
exits with status 1, and the ledger and cursor are unchanged at exit —
shown for a failing market-history response, for a failing trade
submission reached through successful earlier calls, and in general: any
fatal exit of `submit_order` leaves the trader state exactly as it was,
so no ledger entry is ever produced by the failed call. -/
theorem remote_failure_fatal_no_ledger_entry (cfg : TraderConfig)
    (env : SubmitEnv) (ty : Side) (st : TraderState) :
    (env.historyResp.success = false →
      submitOrder cfg env ty st =
        .error (.apiFailure ("Bittex response: " ++ env.historyResp.message) 1, st)) ∧
    (env.historyResp.success = true →
      filterBy env.historyResp.result ty ≠ [] →
      env.tickerResp.success = true →
      env.tickerResp.result.last ≠ 0 →
      env.tradeResp.success = false →
      submitOrder cfg env ty st =
        .error (.apiFailure ("Bittex response: " ++ env.tradeResp.message) 1, st)) ∧
    (∀ (e : ProcExit) (st2 : TraderState),
      submitOrder cfg env ty st = .error (e, st2) → st2 = st) := by
  refine ⟨?_, ?_, fun e st2 h => submitOrder_error_state cfg env ty st e st2 h⟩
  · intro h1
    unfold submitOrder unwrapResp
    simp [h1]
  · intro h1 h2 h3 h4 h5
    unfold submitOrder unwrapResp
    simp [h1, h3, h4, h5, marketStats_of_ne _ _ h2]

/-- Witness for `remote_failure_fatal_no_ledger_entry`: the trade
submission is rejected with INSUFFICIENT_FUNDS and the process dies with
exit status 1 and an untouched ledger. -/
theorem remote_failure_fatal_no_ledger_entry_witness :
    (exFailEnv.historyResp.success = true ∧
     filterBy exFailEnv.historyResp.result Side.BUY ≠ [] ∧
     exFailEnv.tickerResp.success = true ∧
     exFailEnv.tickerResp.result.last ≠ 0 ∧
     exFailEnv.tradeResp.success = false) ∧
    submitOrder exCfg exFailEnv Side.BUY initState =
      .error (.apiFailure ("Bittex response: " ++ exFailEnv.tradeResp.message) 1,
              initState) := by
  have h2 : filterBy exFailEnv.historyResp.result Side.BUY ≠ [] := by decide
  have h4 : exFailEnv.tickerResp.result.last ≠ 0 := by norm_num [exFailEnv]
  exact ⟨⟨rfl, h2, rfl, h4, rfl⟩,
    (remote_failure_fatal_no_ledger_entry exCfg exFailEnv Side.BUY initState).2.1
      rfl h2 rfl h4 rfl⟩

end ClaimC8

section ClaimC9

/-- C9: when the ledger is nonempty and the cursor sits at its length, a
poll reporting the active order still open makes the iteration sleep the
fixed 30-second backoff and submit nothing (the state is unchanged, so
the next iteration re-polls the same order, with no bound on repetitions);
a poll reporting it closed makes the iteration submit exactly one new
order. -/
theorem open_order_gates_submission (cfg : TraderConfig) (e : StepEnv)
    (st : LoopState) (hinv : st.ts.active = st.ts.orders.length)
    (hne : st.ts.orders ≠ []) (hpoll : e.pollResp.success = true) :
    (e.pollResp.result.isOpen = true →
      loopStep cfg e st = .ok (st, .slept 30)) ∧
    (e.pollResp.result.isOpen = false →
      SubmitOk e.submitEnv (flipSide st.lastTrade) →
      ∃ st2 c, loopStep cfg e st = .ok (st2, .submitted c) ∧
        st2.ts.orders.length = st.ts.orders.length + 1) := by
  have hemp : st.ts.orders.isEmpty = false := by
    cases horders : st.ts.orders with
    | nil => exact absurd horders hne
    | cons a t => rfl
  have hpg : pyGet st.ts.orders ((st.ts.active : Int) - 1) = st.ts.orders.getLast? :=
    pyGet_cursor_last st.ts hinv hne
  have hsome : st.ts.orders.getLast?.isSome := List.getLast?_isSome.mpr hne
  obtain ⟨o, ho⟩ := Option.isSome_iff_exists.mp hsome
  have hpgo : pyGet st.ts.orders ((st.ts.active : Int) - 1) = some o := by
    rw [hpg, ho]
  have hresp : unwrapResp e.pollResp = .ok e.pollResp.result := by
    unfold unwrapResp
    simp [hpoll]
  constructor
  · intro hopen
    unfold loopStep
    simp [hemp, hpgo, hresp, hopen]
  · intro hclosed hok
    have hsub := submitOrder_ok cfg e.submitEnv (flipSide st.lastTrade) st.ts hok
    refine ⟨⟨⟨st.ts.orders ++ [e.submitEnv.orderResp.result], st.ts.active + 1⟩,
        some (flipSide st.lastTrade)⟩,
      ⟨flipSide st.lastTrade, cfg.market,
        totalUnitsCalc cfg.shares e.submitEnv.tickerResp.result.last,
        tradeRate cfg e.submitEnv.tickerResp.result (flipSide st.lastTrade)⟩, ?_, ?_⟩
    · unfold loopStep
      simp [hemp, hpgo, hresp, hclosed, hsub]
    · simp

/-- Witness for `open_order_gates_submission`: a concrete iteration whose
poll reports the single ledger order still open sleeps 30 seconds. -/
theorem open_order_gates_submission_witness :
    (exOpenLoop.ts.active = exOpenLoop.ts.orders.length ∧
     exOpenLoop.ts.orders ≠ [] ∧ exOpenStep.pollResp.success = true) ∧
    ((exOpenStep.pollResp.result.isOpen = true →
      loopStep exCfg exOpenStep exOpenLoop = .ok (exOpenLoop, .slept 30)) ∧
     (exOpenStep.pollResp.result.isOpen = false →
      SubmitOk exOpenStep.submitEnv (flipSide exOpenLoop.lastTrade) →
      ∃ st2 c, loopStep exCfg exOpenStep exOpenLoop = .ok (st2, .submitted c) ∧
        st2.ts.orders.length = exOpenLoop.ts.orders.length + 1)) :=
  ⟨⟨rfl, by decide, rfl⟩,
   open_order_gates_submission exCfg exOpenStep exOpenLoop rfl (by decide) rfl⟩

end ClaimC9

section ClaimC10

/-- C10: the cursor equals the ledger length after construction and after
every completed `submit_order`, which extends the ledger by appending
exactly one entry (never removing or overwriting any) and increments the
cursor; under that invariant the entry the loop polls,
`orders[active - 1]` in Python indexing, is the most recently appended
order. -/
theorem ledger_cursor_invariant :
    initState.active = initState.orders.length ∧
    (∀ (cfg : TraderConfig) (env : SubmitEnv) (ty : Side) (st : TraderState)
        (r : TraderState × TradeCall),
      submitOrder cfg env ty st = .ok r →
      r.1.orders = st.orders ++ [env.orderResp.result] ∧
      r.1.active = st.active + 1 ∧
      (st.active = st.orders.length → r.1.active = r.1.orders.length)) ∧
    (∀ st : TraderState, st.active = st.orders.length → st.orders ≠ [] →
      pyGet st.orders ((st.active : Int) - 1) = st.orders.getLast?) := by
  refine ⟨rfl, ?_, fun st h1 h2 => pyGet_cursor_last st h1 h2⟩
  intro cfg env ty st r h
  have hshape := submitOrder_ok_shape cfg env ty st r h
  have h1 : r.1 = ⟨st.orders ++ [env.orderResp.result], st.active + 1⟩ := by
    rw [hshape]
  rw [h1]
  refine ⟨rfl, rfl, fun hact => ?_⟩
  simp [hact]

/-- Witness for `ledger_cursor_invariant`: with a two-entry ledger and the
cursor at 2, the polled entry is the last one. -/
theorem ledger_cursor_invariant_witness :
    (exState2.active = exState2.orders.length ∧ exState2.orders ≠ []) ∧
    pyGet exState2.orders ((exState2.active : Int) - 1) = exState2.orders.getLast? :=
  ⟨⟨rfl, by decide⟩, ledger_cursor_invariant.2.2 exState2 rfl (by decide)⟩

end ClaimC10
